import Mathlib

/-!
Verification development for the ome_convert_deid batch
conversion-and-deidentification pipeline
(`ometiff_dir_convert_and_deidentify4.py`, and the original
`ometiff_dir_convert_and_deidentify.py`).

Paths and other Python strings are embedded as `List Char` (`PStr`), so that
Python's `str.split`, `''.join` and `os.path.split` can be given faithful
recursive definitions that are both executable and amenable to induction.
External-library primitives (glob, subprocess, pandas, tifffile, ome_types)
are modelled by their documented semantics, each noted at its definition.
-/

/-- Python strings / paths, embedded as lists of characters. -/
abbrev PStr := List Char

/-- Coerce a Lean string literal to the `PStr` embedding. -/
def str (s : String) : PStr := s.data

/-- Python `str.split(sep)` for a one-character separator `sep`:
splits at every occurrence, keeping empty parts (`"".split('.') == ['']`,
`"a.".split('.') == ['a','']`). -/
def pySplit (sep : Char) : PStr → List PStr
  | [] => [[]]
  | c :: cs =>
    if c = sep then [] :: pySplit sep cs
    else
      match pySplit sep cs with
      | [] => [[c]]
      | p :: ps => (c :: p) :: ps

/-- Python `''.join(parts)`: concatenation with the empty separator. -/
def pyJoinEmpty (parts : List PStr) : PStr := parts.flatten

/-- `os.path.split(p)[1]` on POSIX paths: everything after the last `'/'`
(the whole string when there is no `'/'`). -/
def basename (p : PStr) : PStr :=
  (p.reverse.takeWhile (fun c => c ≠ '/')).reverse

/-- `''.join(file.split('.')[:-1])` — the script's derivation of the
intermediate name from a source path (note: joined with the EMPTY string,
so every `'.'` in the path is deleted, not just the final extension). -/
def orig_raw_dir (file : PStr) : PStr :=
  pyJoinEmpty ((pySplit '.' file).dropLast)

/-- `output_dir + '/' + os.path.split(path)[1]` — one intermediate raw
directory. -/
def raw_dir_of (output_dir path : PStr) : PStr :=
  output_dir ++ '/' :: basename path

/-- `output_dir + '/' + os.path.split(path)[1] + '.ome.tiff'` — one final
output file path. -/
def out_file_of (output_dir path : PStr) : PStr :=
  output_dir ++ '/' :: basename path ++ str ".ome.tiff"

/-- `orig_raw_dirs = [''.join(file.split('.')[:-1]) for file in files_to_convert]` -/
def orig_raw_dirs (files : List PStr) : List PStr :=
  files.map orig_raw_dir

/-- `raw_dirs = [output_dir + '/' + os.path.split(path)[1] for path in orig_raw_dirs]` -/
def raw_dirs (output_dir : PStr) (files : List PStr) : List PStr :=
  (orig_raw_dirs files).map (raw_dir_of output_dir)

/-- `out_files = [output_dir + '/' + os.path.split(path)[1] + '.ome.tiff' for path in orig_raw_dirs]` -/
def out_files (output_dir : PStr) (files : List PStr) : List PStr :=
  (orig_raw_dirs files).map (out_file_of output_dir)

/-- `[l[x:x+k] for x in range(0, len(l), k)]` — the script's chunking of a
list into consecutive slices of size `k` (the script uses `k = 10`).
`range(0, n, k)` for `k > 0` has `⌈n/k⌉` elements `0, k, 2k, …`. -/
def chunksOf (k : Nat) (l : List α) : List (List α) :=
  (List.range ((l.length + k - 1) / k)).map (fun i => (l.drop (i * k)).take k)

/-- The filesystem visible to discovery: a list of existing directories,
each with the names of the regular files it contains, in listing order. -/
structure FS where
  dirs : List (PStr × List PStr)
deriving DecidableEq

/-- Directory lookup; `none` when the directory does not exist. -/
def lookupDir (fs : FS) (d : PStr) : Option (List PStr) :=
  (fs.dirs.find? (fun p => p.1 == d)).map (fun p => p.2)

/-- `glob(dir + '/*' + ext)`: the files of `dir` whose name ends with `ext`
and does not start with a dot (glob's `*` never matches a leading dot),
each returned as `dir + '/' + name`; a non-existent directory yields no
matches and no error. -/
def glob (fs : FS) (dir ext : PStr) : List PStr :=
  match lookupDir fs dir with
  | none => []
  | some names =>
    (names.filter (fun n => ext.isSuffixOf n && !(n.head? == some '.'))).map
      (fun n => dir ++ '/' :: n)

/-- `file_types = ['.qptiff', '.svs', '.scn']` -/
def file_types : List PStr := [str ".qptiff", str ".svs", str ".scn"]

/-- The discovery loop: `files_to_convert = files_to_convert + glob(input_dir + '/*' + filetype)`
for each filetype in order. -/
def files_to_convert (fs : FS) (input_dir : PStr) : List PStr :=
  file_types.foldl (fun acc ft => acc ++ glob fs input_dir ft) []

/-! ## The OME metadata document model

The `ome_types` object graph, restricted to the fields this pipeline
touches (spec §6: images with acquisition timestamp / pixel-geometry /
planes, instruments with microscope and objectives, and the top-level
structured-annotations collection). -/

/-- `instrument.microscope` with its `model` attribute (optional in OME). -/
structure Microscope where
  model : Option PStr
deriving DecidableEq

/-- `instrument.objectives[i]`, with the two attributes the script reads. -/
structure Objective where
  model : Option PStr
  nominal_magnification : Option Nat
deriving DecidableEq

/-- `ome.instruments[i]`. -/
structure Instrument where
  microscope : Microscope
  objectives : List Objective
deriving DecidableEq

/-- `image.pixels`, with the attributes the script reads. -/
structure Pixels where
  dimension_order : PStr
  physical_size_x : Option Nat
  physical_size_y : Option Nat
  physical_size_z : Option Nat
  big_endian : Bool
  planes : List PStr
  size_c : Nat
  size_t : Nat
  size_x : Nat
  size_y : Nat
  size_z : Nat
deriving DecidableEq

/-- `ome.images[i]`. -/
structure Image where
  id : PStr
  acquisition_date : Option PStr
  pixels : Pixels
deriving DecidableEq

/-- The parsed OME metadata document. -/
structure OME where
  images : List Image
  instruments : List Instrument
  structured_annotations : List PStr
deriving DecidableEq

/-- The Python exceptions the scripts can raise. -/
inductive PyErr where
  /-- `NameError: name <x> is not defined` -/
  | nameError (x : PStr)
  /-- `IndexError: list index out of range` -/
  | indexError
  /-- `subprocess.CalledProcessError` from `check_call` -/
  | calledProcessError
  /-- `ValueError` (pandas: `No objects to concatenate`) -/
  | valueError
deriving DecidableEq

/-- Python list indexing `l[i]`: raises `IndexError` out of range. -/
def pyIndex (l : List α) (i : Nat) : Except PyErr α :=
  match l.get? i with
  | some a => Except.ok a
  | none => Except.error PyErr.indexError

/-- A Python value as it is stored in the metadata dict (string, number,
bool, or `None`). -/
inductive PyVal where
  | vStr (s : PStr)
  | vNat (n : Nat)
  | vBool (b : Bool)
  | vNone
deriving DecidableEq

/-- An optional string attribute placed into the dict (`None` stays `None`
until the final `fillna`). -/
def optStrV (o : Option PStr) : PyVal := o.elim PyVal.vNone PyVal.vStr

/-- An optional numeric attribute placed into the dict. -/
def optNatV (o : Option Nat) : PyVal := o.elim PyVal.vNone PyVal.vNat

/-- One row of the report: the insertion-ordered metadata dict. -/
abbrev MetaDict := List (PStr × PyVal)

/-- `get_img_metadata(ome1, filename)`: builds the fixed-key dict. The dict
literal's fallible accesses happen in source order — `ome1.instruments[0]`
first (for `Microscope`), then `.objectives[0]`, then `ome1.images[0]` —
each an unchecked index that raises `IndexError` when the list is empty. -/
def get_img_metadata (ome1 : OME) (filename : PStr) : Except PyErr MetaDict := do
  let inst ← pyIndex ome1.instruments 0
  let obj ← pyIndex inst.objectives 0
  let img ← pyIndex ome1.images 0
  Except.ok
    [ (str "Component", PyVal.vStr (str "ImagingLevel2")),
      (str "Filename", PyVal.vStr filename),
      (str "File Format", PyVal.vStr (str "OME-TIFF")),
      (str "HTAN Participant ID", PyVal.vStr []),
      (str "HTAN Parent Biospecimen ID", PyVal.vStr []),
      (str "HTAN Data File ID", PyVal.vStr []),
      (str "Channel Metadata Filename", PyVal.vStr []),
      (str "Imaging Assay Type", PyVal.vStr (str "H&E")),
      (str "Protocol Link", PyVal.vStr []),
      (str "Software and Version", PyVal.vStr []),
      (str "Microscope", optStrV inst.microscope.model),
      (str "Objective", optStrV obj.model),
      (str "NominalMagnification", optNatV obj.nominal_magnification),
      (str "LensNA", PyVal.vStr []),
      (str "WorkingDistance", PyVal.vStr []),
      (str "WorkingDistanceUnit", PyVal.vStr []),
      (str "Immersion", PyVal.vStr []),
      (str "Pyramid", PyVal.vStr []),
      (str "Zstack", PyVal.vStr []),
      (str "Tseries", PyVal.vStr []),
      (str "Passed QC", PyVal.vStr []),
      (str "Comment", PyVal.vStr []),
      (str "FOV number", PyVal.vStr []),
      (str "FOVX", PyVal.vStr []),
      (str "FOVXUnit", PyVal.vStr []),
      (str "FOVY", PyVal.vStr []),
      (str "FOVYUnit", PyVal.vStr []),
      (str "Frame Averaging", PyVal.vStr []),
      (str "Image ID", PyVal.vStr img.id),
      (str "DimensionOrder", PyVal.vStr img.pixels.dimension_order),
      (str "PhysicalSizeX", optNatV img.pixels.physical_size_x),
      (str "PhysicalSizeXUnit", PyVal.vStr []),
      (str "PhysicalSizeY", optNatV img.pixels.physical_size_y),
      (str "PhysicalSizeYUnit", PyVal.vStr []),
      (str "PhysicalSizeZ", optNatV img.pixels.physical_size_z),
      (str "PhysicalSizeZUnit", PyVal.vStr []),
      (str "Pixels BigEndian", PyVal.vBool img.pixels.big_endian),
      (str "PlaneCount", PyVal.vNat img.pixels.planes.length),
      (str "SizeC", PyVal.vNat img.pixels.size_c),
      (str "SizeT", PyVal.vNat img.pixels.size_t),
      (str "SizeX", PyVal.vNat img.pixels.size_x),
      (str "SizeY", PyVal.vNat img.pixels.size_y),
      (str "SizeZ", PyVal.vNat img.pixels.size_z),
      (str "PixelType", PyVal.vStr []) ]

/-! ## The deidentification mutation -/

/-- The stripping loop
`for img_num in range(len(ome.images)): ome.images[img_num].acquisition_date = None`
— clears the acquisition date of every image. -/
def strip_images (imgs : List Image) : List Image :=
  imgs.map (fun img => { img with acquisition_date := none })

/-- The whole in-memory mutation: clear every image's acquisition date and
set `ome.structured_annotations = []`. -/
def strip_ome (ome : OME) : OME :=
  { ome with images := strip_images ome.images, structured_annotations := [] }

/-- `ome_types.to_xml(ome)`: the opaque library's deterministic serializer
(spec §6 contract `serialize(MetadataDocument) -> text`); a simple concrete
rendering of the document model stands in for the real XML printer — the
theorems below rely only on it being a function of the document. -/
def to_xml (d : OME) : PStr :=
  str "<OME>"
    ++ (d.images.map (fun img =>
          str "<Image " ++ img.id
            ++ (img.acquisition_date.elim [] (fun t => str " AcquisitionDate=" ++ t))
            ++ str " order=" ++ img.pixels.dimension_order ++ str "/>")).flatten
    ++ (d.instruments.map (fun i =>
          str "<Instrument " ++ (i.microscope.model.getD []) ++ str "/>")).flatten
    ++ (d.structured_annotations).flatten
    ++ str "</OME>"

/-- An output container file: opaque pixel data plus the embedded metadata
comment that `tifffile.tiffcomment` rewrites. -/
structure TiffFile where
  pixel_data : List Nat
  comment : PStr
deriving DecidableEq

/-- `tifffile.tiffcomment(file, new_xml)`: replaces only the embedded
comment, leaving pixel data untouched. -/
def tiffcomment (f : TiffFile) (new_xml : PStr) : TiffFile :=
  { f with comment := new_xml }

/-- The per-file deidentification step of the loop body:
`ome = ot.from_tiff(file)` (parse the embedded comment), strip it, and
`tifffile.tiffcomment(file, to_xml(ome))`. `parse` is the opaque library's
`from_tiff` reader applied to the embedded comment. -/
def deid_step (parse : PStr → OME) (f : TiffFile) : TiffFile :=
  tiffcomment f (to_xml (strip_ome (parse f.comment)))

/-! ## The conversion orchestrator (version 4 script) -/

/-- `subprocess.check_call(cmd)`: returns normally on exit status 0 and
raises `CalledProcessError` otherwise; `ok` is the invoked tool's success
bit for this concrete command. -/
def subprocess_check_call (ok : Bool) : Except PyErr Unit :=
  if ok then Except.ok () else Except.error PyErr.calledProcessError

/-- `do_bioformats2raw(file, raw_dir)`: one stage-1 invocation;
`ok1 file raw_dir` is the external tool's exit-success oracle. -/
def do_bioformats2raw (ok1 : PStr → PStr → Bool) (file raw_dir : PStr) :
    Except PyErr Unit :=
  subprocess_check_call (ok1 file raw_dir)

/-- `do_raw2ometiff_rgb(raw_dir, outfile)`: one stage-2 invocation with
`--rgb`; `ok2 true` is the tool's exit-success oracle for that command. -/
def do_raw2ometiff_rgb (ok2 : Bool → PStr → PStr → Bool) (raw_dir outfile : PStr) :
    Except PyErr Unit :=
  subprocess_check_call (ok2 true raw_dir outfile)

/-- `do_raw2ometiff(raw_dir, outfile)`: one stage-2 invocation without
`--rgb`. -/
def do_raw2ometiff (ok2 : Bool → PStr → PStr → Bool) (raw_dir outfile : PStr) :
    Except PyErr Unit :=
  subprocess_check_call (ok2 false raw_dir outfile)

/-- Sequencing of fallible per-element actions. `Pool(20).starmap` submits
every task of the chunk and re-raises the first worker exception when it
collects the results, so — like the plain `for` loops — the observable
outcome is: `ok` when every element succeeds, the raised error otherwise. -/
def pySeq (f : α → Except PyErr Unit) : List α → Except PyErr Unit
  | [] => Except.ok ()
  | a :: l => do
      f a
      pySeq f l

/-- `pool.starmap(f, pairs)` for a unit-producing worker `f`. -/
def pool_starmap (f : α → Except PyErr Unit) (l : List α) : Except PyErr Unit :=
  pySeq f l

/-- Stage 1: unless skipped, for each chunk index `i` run a pool over
`zip(chunked_files_to_convert[i], chunked_raw_dirs[i])`. The chunk lists
have equal length, so iterating `range(num_chunks)` is iterating their
zip. -/
def run_stage1 (skip1 : Bool) (ok1 : PStr → PStr → Bool)
    (chunked_files chunked_rdirs : List (List PStr)) : Except PyErr Unit :=
  if skip1 then Except.ok ()
  else
    pySeq (fun c => pool_starmap (fun p => do_bioformats2raw ok1 p.1 p.2) (c.1.zip c.2))
      (chunked_files.zip chunked_rdirs)

/-- Stage 2: unless skipped, the `rgb` flag selects which worker function
every chunk's pool runs. -/
def run_stage2 (skip2 rgb : Bool) (ok2 : Bool → PStr → PStr → Bool)
    (chunked_rdirs chunked_ofiles : List (List PStr)) : Except PyErr Unit :=
  if skip2 then Except.ok ()
  else if rgb then
    pySeq (fun c => pool_starmap (fun p => do_raw2ometiff_rgb ok2 p.1 p.2) (c.1.zip c.2))
      (chunked_rdirs.zip chunked_ofiles)
  else
    pySeq (fun c => pool_starmap (fun p => do_raw2ometiff ok2 p.1 p.2) (c.1.zip c.2))
      (chunked_rdirs.zip chunked_ofiles)

/-! ## The metadata loop and report (version 4 script) -/

/-- The version-4 loop body for one output file: `filename = os.path.split(file)[1]`,
`ome = ot.from_tiff(file)`, `meta_dict = get_img_metadata(ome, filename)`,
strip the document, `new_xml = ot.to_xml(ome)`. Returns the report row and
the XML written back by `tifffile.tiffcomment`. `from_tiff` is the opaque
reader of the metadata document embedded in each output file. -/
def v4_body (from_tiff : PStr → OME) (file : PStr) :
    Except PyErr (MetaDict × PStr) := do
  let filename := basename file
  let ome := from_tiff file
  let meta_dict ← get_img_metadata ome filename
  let ome2 := strip_ome ome
  Except.ok (meta_dict, to_xml ome2)

/-- The version-4 metadata loop over `out_files`, accumulating `res_list`
and the `(file, new_xml)` comment writes, in file order; the first raised
exception aborts the loop (and the script). -/
def metadata_pass (from_tiff : PStr → OME) :
    List PStr → Except PyErr (List MetaDict × List (PStr × PStr))
  | [] => Except.ok ([], [])
  | file :: rest => do
      let r ← v4_body from_tiff file
      let acc ← metadata_pass from_tiff rest
      Except.ok (r.1 :: acc.1, (file, r.2) :: acc.2)

/-- `pd.concat(res_list)`: pandas raises
`ValueError: No objects to concatenate` on an empty list, and otherwise
stacks the one-row frames in order. -/
def pd_concat (res_list : List MetaDict) : Except PyErr (List MetaDict) :=
  if res_list.isEmpty then Except.error PyErr.valueError else Except.ok res_list

/-- `final_res_df.fillna("")`: every `None` cell becomes the empty string. -/
def fillnaVal : PyVal → PyVal
  | PyVal.vNone => PyVal.vStr []
  | v => v

/-- `fillna` over the whole report. -/
def fillna (rows : List MetaDict) : List MetaDict :=
  rows.map (fun row => row.map (fun kv => (kv.1, fillnaVal kv.2)))

/-- The whole version-4 script after argument parsing: discovery, path
derivation, chunking (size 10), stage 1, stage 2, the metadata loop,
`pd.concat`, `fillna` and the written report. The result is the table
written to `htan_ome_metadata.xlsx`, or the uncaught exception that
aborted the run. -/
def run_script (fs : FS) (input_dir output_dir : PStr)
    (rgb skip1 skip2 : Bool)
    (ok1 : PStr → PStr → Bool) (ok2 : Bool → PStr → PStr → Bool)
    (from_tiff : PStr → OME) : Except PyErr (List MetaDict) := do
  let files := files_to_convert fs input_dir
  let rdirs := raw_dirs output_dir files
  let ofiles := out_files output_dir files
  run_stage1 skip1 ok1 (chunksOf 10 files) (chunksOf 10 rdirs)
  run_stage2 skip2 rgb ok2 (chunksOf 10 rdirs) (chunksOf 10 ofiles)
  let res ← metadata_pass from_tiff ofiles
  let final ← pd_concat res.1
  Except.ok (fillna final)

/-! ## The original (version 1) metadata loop

The version-1 loop body reads two names that are assigned nowhere in that
script: `filename = os.path.split(img)[1]` reads `img`, and
`meta_dict = get_img_metadata(ome1, filename)` reads `ome1`. Every other
name the body references (`os`, `ot`, `file`, `ome`, `get_img_metadata`,
`res_list`, `tifffile`, …) is bound by the imports, definitions and
assignments above the loop, so only these two are looked up through the
dynamic environment below, which in the actual script binds neither. -/

/-- A dynamic Python value, for names resolved at run time. -/
inductive Dyn where
  | dStr (s : PStr)
  | dOme (d : OME)
deriving DecidableEq

/-- Reading a global name: `NameError` when it has no binding. -/
def getName (env : PStr → Option Dyn) (x : PStr) : Except PyErr Dyn :=
  match env x with
  | some v => Except.ok v
  | none => Except.error (PyErr.nameError x)

/-- A value used where a string/path is expected. -/
def asPStr : Dyn → Except PyErr PStr
  | Dyn.dStr s => Except.ok s
  | _ => Except.error PyErr.valueError

/-- A value used where a metadata document is expected. -/
def asOme : Dyn → Except PyErr OME
  | Dyn.dOme d => Except.ok d
  | _ => Except.error PyErr.valueError

/-- The global environment of the version-1 script at the loop: neither
`img` nor `ome1` is ever assigned, so neither has a binding. -/
def v1_env : PStr → Option Dyn := fun _ => none

/-- The version-1 loop body for one output file, statements in source
order: `filename = os.path.split(img)[1]` (reads the unbound `img`),
`ome = ot.from_tiff(file)`, `meta_dict = get_img_metadata(ome1, filename)`
(reads the unbound `ome1`), then the stripping and the comment rewrite. -/
def v1_body (env : PStr → Option Dyn) (from_tiff : PStr → OME) (file : PStr) :
    Except PyErr (MetaDict × PStr) := do
  let imgv ← getName env (str "img")
  let imgs ← asPStr imgv
  let filename := basename imgs
  let ome := from_tiff file
  let ome1v ← getName env (str "ome1")
  let ome1d ← asOme ome1v
  let meta_dict ← get_img_metadata ome1d filename
  let ome2 := strip_ome ome
  Except.ok (meta_dict, to_xml ome2)

/-- The version-1 metadata loop over `out_files`. -/
def v1_metadata_pass (from_tiff : PStr → OME) :
    List PStr → Except PyErr (List MetaDict × List (PStr × PStr))
  | [] => Except.ok ([], [])
  | file :: rest => do
      let r ← v1_body v1_env from_tiff file
      let acc ← v1_metadata_pass from_tiff rest
      Except.ok (r.1 :: acc.1, (file, r.2) :: acc.2)

/-- The tail of the version-1 script: the metadata loop, `pd.concat`,
`fillna`, and the written report. -/
def v1_report (from_tiff : PStr → OME) (ofiles : List PStr) :
    Except PyErr (List MetaDict) := do
  let res ← v1_metadata_pass from_tiff ofiles
  let final ← pd_concat res.1
  Except.ok (fillna final)

/-! ## Concrete fixtures -/

/-- An input directory holding two source files `a.svs`, `b.svs`. -/
def fsAB : FS := ⟨[(str "in", [str "a.svs", str "b.svs"])]⟩

/-- An input directory holding `sample.qptiff` and `sample.svs`. -/
def fsTwoExt : FS := ⟨[(str "in", [str "sample.qptiff", str "sample.svs"])]⟩

/-- A filesystem in which the input directory does not exist. -/
def fsMissing : FS := ⟨[]⟩

/-- An existing input directory with no file of a recognized extension. -/
def fsNoMatch : FS := ⟨[(str "in", [str "readme.txt"])]⟩

/-- Stage-1 tool succeeding on every invocation. -/
def ok1All : PStr → PStr → Bool := fun _ _ => true

/-- Stage-2 tool succeeding on every invocation. -/
def ok2All : Bool → PStr → PStr → Bool := fun _ _ _ => true

/-- Stage-1 tool failing exactly on source file `in/a.svs`. -/
def ok1FailA : PStr → PStr → Bool := fun f _ => !(f == str "in/a.svs")

/-- A sample pixel-geometry block. -/
def pixels0 : Pixels :=
  ⟨str "XYCZT", some 1, some 1, none, false, [str "plane0"], 3, 1, 100, 100, 1⟩

/-- A sample image carrying an acquisition date. -/
def image0 : Image := ⟨str "Image:0", some (str "2023-04-13T12:00:00"), pixels0⟩

/-- A sample instrument with one objective. -/
def inst0 : Instrument := ⟨⟨some (str "ScopeModel")⟩, [⟨some (str "ObjModel"), some 40⟩]⟩

/-- A sample well-formed metadata document (one image, one instrument, one
structured annotation). -/
def ome0 : OME := ⟨[image0], [inst0], [str "annot0"]⟩

/-- A metadata document with zero images and zero instruments. -/
def omeEmpty : OME := ⟨[], [], []⟩

/-- A reader that parses every output file to the sample document. -/
def from_tiff0 : PStr → OME := fun _ => ome0

/-! ## Helper lemmas -/

theorem pySplit_ne_nil (sep : Char) (l : PStr) : pySplit sep l ≠ [] := by
  cases l with
  | nil => simp [pySplit]
  | cons c cs =>
    simp only [pySplit]
    split
    · simp
    · split
      · simp
      · simp

theorem pySplit_cons (sep c : Char) (cs : PStr) :
    pySplit sep (c :: cs) =
      if c = sep then [] :: pySplit sep cs
      else
        match pySplit sep cs with
        | [] => [[c]]
        | p :: ps => (c :: p) :: ps := rfl

theorem pySplit_of_not_mem {sep : Char} {l : PStr} (h : sep ∉ l) :
    pySplit sep l = [l] := by
  induction l with
  | nil => rfl
  | cons c cs ih =>
    simp only [List.mem_cons, not_or] at h
    have hc : ¬ (c = sep) := fun hcs => h.1 hcs.symm
    rw [pySplit_cons, if_neg hc, ih h.2]

theorem pySplit_append {sep : Char} {l1 : PStr} (l2 : PStr) (h : sep ∉ l1) :
    pySplit sep (l1 ++ sep :: l2) = l1 :: pySplit sep l2 := by
  induction l1 with
  | nil =>
    rw [List.nil_append, pySplit_cons, if_pos rfl]
  | cons c cs ih =>
    simp only [List.mem_cons, not_or] at h
    have hc : ¬ (c = sep) := fun hcs => h.1 hcs.symm
    rw [List.cons_append, pySplit_cons, if_neg hc, ih h.2]

theorem takeWhile_append_of_pos {p : Char → Bool} {l1 : PStr} {b : Char} (l2 : PStr)
    (h1 : ∀ a ∈ l1, p a = true) (hb : p b = false) :
    (l1 ++ b :: l2).takeWhile p = l1 := by
  induction l1 with
  | nil =>
    rw [List.nil_append, List.takeWhile_cons, if_neg (by simp [hb])]
  | cons c cs ih =>
    have hc : p c = true := h1 c (by simp)
    rw [List.cons_append, List.takeWhile_cons, if_pos hc,
      ih (fun a ha => h1 a (by simp [ha]))]

theorem basename_append {s : PStr} (d : PStr) (h : '/' ∉ s) :
    basename (d ++ '/' :: s) = s := by
  unfold basename
  have hrev : (d ++ '/' :: s).reverse = s.reverse ++ '/' :: d.reverse := by
    simp
  rw [hrev, takeWhile_append_of_pos d.reverse
    (fun a ha => by
      have hne : a ≠ '/' := fun hEq => h (List.mem_reverse.mp (hEq ▸ ha))
      simpa using hne)
    (by simp), List.reverse_reverse]

theorem chunksOf_nil (k : Nat) : chunksOf k ([] : List α) = [] := by
  have h : ((List.nil : List α).length + k - 1) / k = 0 := by
    cases k with
    | zero => simp
    | succ k =>
      apply Nat.div_eq_of_lt
      simp
  unfold chunksOf
  rw [h]
  rfl

theorem chunksOf_cons_eq {k : Nat} (hk : 0 < k) (l : List α) (hl : l ≠ []) :
    chunksOf k l = l.take k :: chunksOf k (l.drop k) := by
  unfold chunksOf
  have hn : 0 < l.length := List.length_pos.mpr hl
  have hdrop : (l.drop k).length = l.length - k := List.length_drop k l
  set n := l.length with hdef
  have hm : (n + k - 1) / k = (n - k + k - 1) / k + 1 := by
    rcases le_or_lt n k with hle | hlt
    · have h1 : n - k = 0 := by omega
      rw [h1]
      have h2 : (0 + k - 1) / k = 0 := Nat.div_eq_of_lt (by omega)
      rw [h2]
      exact Nat.div_eq_of_lt_le (by omega) (by omega)
    · have h1 : n - k + k - 1 = n - 1 := by omega
      have h2 : n + k - 1 = (n - 1) + k := by omega
      rw [h1, h2, Nat.add_div_right _ hk]
  rw [hdrop, hm, List.range_succ_eq_map, List.map_cons, List.map_map]
  refine congrArg₂ _ (by simp) ?_
  refine List.map_congr_left (fun i _ => ?_)
  simp only [Function.comp_apply, List.drop_drop]
  have h3 : Nat.succ i * k = k + i * k := by
    rw [Nat.succ_mul, Nat.add_comm]
  rw [h3]

theorem chunksOf_flatten_aux {k : Nat} (hk : 0 < k) :
    ∀ (n : Nat) (l : List α), l.length ≤ n → (chunksOf k l).flatten = l := by
  intro n
  induction n with
  | zero =>
    intro l hl
    have : l = [] := List.eq_nil_of_length_eq_zero (by omega)
    rw [this, chunksOf_nil]
    rfl
  | succ n ih =>
    intro l hl
    rcases eq_or_ne l [] with h | h
    · rw [h, chunksOf_nil]; rfl
    · rw [chunksOf_cons_eq hk l h, List.flatten_cons,
        ih (l.drop k) (by
          have := List.length_pos.mpr h
          rw [List.length_drop]
          omega),
        List.take_append_drop]

theorem chunksOf_flatten {k : Nat} (hk : 0 < k) (l : List α) :
    (chunksOf k l).flatten = l :=
  chunksOf_flatten_aux hk l.length l le_rfl

theorem chunksOf_length_le {k : Nat} {l : List α} {c : List α}
    (hc : c ∈ chunksOf k l) : c.length ≤ k := by
  unfold chunksOf at hc
  rcases List.mem_map.mp hc with ⟨i, _, hi⟩
  rw [← hi, List.length_take]
  omega

theorem chunksOf_ne_nil {k : Nat} (hk : 0 < k) {l : List α} (hl : l ≠ []) :
    chunksOf k l ≠ [] := by
  rw [chunksOf_cons_eq hk l hl]
  simp

theorem chunksOf_dropLast_aux {k : Nat} (hk : 0 < k) :
    ∀ (n : Nat) (l : List α), l.length ≤ n →
      ∀ c ∈ (chunksOf k l).dropLast, c.length = k := by
  intro n
  induction n with
  | zero =>
    intro l hl c hc
    have : l = [] := List.eq_nil_of_length_eq_zero (by omega)
    rw [this, chunksOf_nil] at hc
    simp at hc
  | succ n ih =>
    intro l hl c hc
    rcases eq_or_ne l [] with h | h
    · rw [h, chunksOf_nil] at hc
      simp at hc
    · rw [chunksOf_cons_eq hk l h] at hc
      rcases eq_or_ne (l.drop k) [] with hd | hd
      · rw [hd, chunksOf_nil] at hc
        simp at hc
      · rw [List.dropLast_cons_of_ne_nil (chunksOf_ne_nil hk hd)] at hc
        rcases List.mem_cons.mp hc with h1 | h1
        · have hklen : k < l.length := by
            have := List.length_pos.mpr hd
            rw [List.length_drop] at this
            omega
          rw [h1, List.length_take]
          omega
        · exact ih (l.drop k)
            (by
              have := List.length_pos.mpr h
              rw [List.length_drop]
              omega) c h1

theorem chunksOf_dropLast {k : Nat} (hk : 0 < k) (l : List α) :
    ∀ c ∈ (chunksOf k l).dropLast, c.length = k :=
  chunksOf_dropLast_aux hk l.length l le_rfl

theorem pySeq_cons (f : α → Except PyErr Unit) (b : α) (bs : List α) :
    pySeq f (b :: bs) = (f b).bind (fun _ => pySeq f bs) := rfl

theorem pySeq_ok_mem {f : α → Except PyErr Unit} {l : List α}
    (h : pySeq f l = Except.ok ()) {a : α} (ha : a ∈ l) :
    f a = Except.ok () := by
  induction l with
  | nil => simp at ha
  | cons b bs ih =>
    rw [pySeq_cons] at h
    rcases hfb : f b with e | u
    · rw [hfb] at h
      simp [Except.bind] at h
    · rcases List.mem_cons.mp ha with h1 | h1
      · rw [h1, hfb]
      · refine ih ?_ h1
        rw [hfb] at h
        simpa [Except.bind] using h

theorem zip_append_eq {l1 r1 : List α} {l2 r2 : List β}
    (h : l1.length = l2.length) :
    (l1 ++ r1).zip (l2 ++ r2) = l1.zip l2 ++ r1.zip r2 := by
  induction l1 generalizing l2 with
  | nil =>
    cases l2 with
    | nil => simp
    | cons b bs => simp at h
  | cons a as ih =>
    cases l2 with
    | nil => simp at h
    | cons b bs =>
      simp only [List.cons_append, List.zip_cons_cons]
      exact congrArg (List.cons (a, b)) (ih (by simpa using h))

theorem mem_zip_chunksOf_aux {k : Nat} (hk : 0 < k) :
    ∀ (n : Nat) (l1 : List α) (l2 : List β), l1.length ≤ n →
      l1.length = l2.length → ∀ p ∈ l1.zip l2,
      ∃ c ∈ (chunksOf k l1).zip (chunksOf k l2), p ∈ c.1.zip c.2 := by
  intro n
  induction n with
  | zero =>
    intro l1 l2 hl hlen p hp
    have : l1 = [] := List.eq_nil_of_length_eq_zero (by omega)
    rw [this] at hp
    simp at hp
  | succ n ih =>
    intro l1 l2 hl hlen p hp
    rcases eq_or_ne l1 [] with h1 | h1
    · rw [h1] at hp; simp at hp
    · have h2 : l2 ≠ [] := by
        intro h
        rw [h] at hlen
        exact h1 (List.eq_nil_of_length_eq_zero (by simpa using hlen))
      have hsplit : l1.zip l2 =
          (l1.take k).zip (l2.take k) ++ (l1.drop k).zip (l2.drop k) := by
        conv_lhs => rw [← List.take_append_drop k l1, ← List.take_append_drop k l2]
        exact zip_append_eq (by rw [List.length_take, List.length_take, hlen])
      rw [chunksOf_cons_eq hk l1 h1, chunksOf_cons_eq hk l2 h2,
        List.zip_cons_cons]
      rw [hsplit] at hp
      rcases List.mem_append.mp hp with hmem | hmem
      · exact ⟨(l1.take k, l2.take k), by simp, hmem⟩
      · rcases ih (l1.drop k) (l2.drop k)
          (by
            have := List.length_pos.mpr h1
            rw [List.length_drop]
            omega)
          (by rw [List.length_drop, List.length_drop, hlen]) p hmem with
          ⟨c, hc, hpc⟩
        exact ⟨c, List.mem_cons_of_mem _ hc, hpc⟩

theorem mem_zip_chunksOf {k : Nat} (hk : 0 < k) {l1 : List α} {l2 : List β}
    (hlen : l1.length = l2.length) {p : α × β} (hp : p ∈ l1.zip l2) :
    ∃ c ∈ (chunksOf k l1).zip (chunksOf k l2), p ∈ c.1.zip c.2 :=
  mem_zip_chunksOf_aux hk l1.length l1 l2 le_rfl hlen p hp

theorem strip_ome_idem (d : OME) : strip_ome (strip_ome d) = strip_ome d := by
  unfold strip_ome strip_images
  simp

theorem mem_zip_map_self {g : α → β} :
    ∀ {l : List α} {p : α × β}, p ∈ l.zip (l.map g) → p.2 = g p.1 := by
  intro l
  induction l with
  | nil => intro p hp; simp at hp
  | cons a as ih =>
    intro p hp
    rcases List.mem_cons.mp hp with h | h
    · rw [h]
    · exact ih h

theorem except_bind_error_elim {α β : Type} {x : Except PyErr α}
    {k : α → Except PyErr β} {e : PyErr} (h : (x >>= k) = Except.error e) :
    x = Except.error e ∨ ∃ a, x = Except.ok a ∧ k a = Except.error e := by
  rcases x with e1 | a
  · left
    have h2 : (Except.error e1 : Except PyErr β) = Except.error e := h
    rw [Except.error.inj h2]
  · right
    exact ⟨a, rfl, h⟩

theorem pyIndex_error {l : List α} {i : Nat} {e : PyErr}
    (h : pyIndex l i = Except.error e) : e = PyErr.indexError := by
  unfold pyIndex at h
  rcases hg : l.get? i with _ | a
  · rw [hg] at h
    exact (Except.error.inj h).symm
  · rw [hg] at h
    exact absurd h (by simp)

theorem get_img_metadata_error {d : OME} {fn : PStr} {e : PyErr}
    (h : get_img_metadata d fn = Except.error e) : e = PyErr.indexError := by
  unfold get_img_metadata at h
  rcases except_bind_error_elim h with h1 | ⟨inst, _, h⟩
  · exact pyIndex_error h1
  rcases except_bind_error_elim h with h1 | ⟨obj, _, h⟩
  · exact pyIndex_error h1
  rcases except_bind_error_elim h with h1 | ⟨img, _, h⟩
  · exact pyIndex_error h1
  · exact absurd h (by simp)

theorem except_bind_ok_elim {α β : Type} {x : Except PyErr α}
    {k : α → Except PyErr β} {b : β} (h : (x >>= k) = Except.ok b) :
    ∃ a, x = Except.ok a ∧ k a = Except.ok b := by
  rcases x with e1 | a
  · have h2 : (Except.error e1 : Except PyErr β) = Except.ok b := h
    exact absurd h2 (by simp)
  · exact ⟨a, rfl, h⟩

theorem run_script_ok_stages {fs : FS} {input_dir output_dir : PStr}
    {rgb skip1 skip2 : Bool} {ok1 : PStr → PStr → Bool}
    {ok2 : Bool → PStr → PStr → Bool} {from_tiff : PStr → OME}
    {rows : List MetaDict}
    (h : run_script fs input_dir output_dir rgb skip1 skip2 ok1 ok2 from_tiff
      = Except.ok rows) :
    run_stage1 skip1 ok1 (chunksOf 10 (files_to_convert fs input_dir))
      (chunksOf 10 (raw_dirs output_dir (files_to_convert fs input_dir)))
      = Except.ok () ∧
    run_stage2 skip2 rgb ok2
      (chunksOf 10 (raw_dirs output_dir (files_to_convert fs input_dir)))
      (chunksOf 10 (out_files output_dir (files_to_convert fs input_dir)))
      = Except.ok () := by
  simp only [run_script] at h
  rcases except_bind_ok_elim h with ⟨u1, h1, h⟩
  rcases except_bind_ok_elim h with ⟨u2, h2, _⟩
  cases u1
  cases u2
  exact ⟨h1, h2⟩

/-- A reader whose round trip is exact on the already-stripped sample
document (the stripped document parses back to itself). -/
def parse0 : PStr → OME := fun _ => strip_ome ome0

/-- A concrete output container file. -/
def tiff0 : TiffFile := ⟨[1, 2, 3], str "xml0"⟩

/-! ## Claims -/

/-- C4: for every job list and chunk size K > 0 (the script uses 10),
concatenating all chunks reproduces the original list in order, every
chunk has length at most K, every chunk except possibly the last has
length exactly K (so at most one chunk, the last, is shorter), and 25
jobs with K = 10 yield chunks of sizes [10, 10, 5]. -/
theorem C4_chunking {α : Type} (k : Nat) (hk : 0 < k) (l : List α) :
    (chunksOf k l).flatten = l ∧
    (∀ c ∈ chunksOf k l, c.length ≤ k) ∧
    (∀ c ∈ (chunksOf k l).dropLast, c.length = k) ∧
    (chunksOf 10 (List.range 25)).map List.length = [10, 10, 5] :=
  ⟨chunksOf_flatten hk l, fun _ hc => chunksOf_length_le hc,
    chunksOf_dropLast hk l, by decide⟩

/-- Witness for C4 at K = 10 and the 25-element job list. -/
theorem C4_chunking_witness :
    0 < 10 ∧
    ((chunksOf 10 (List.range 25)).flatten = List.range 25 ∧
     (∀ c ∈ chunksOf 10 (List.range 25), c.length ≤ 10) ∧
     (∀ c ∈ (chunksOf 10 (List.range 25)).dropLast, c.length = 10) ∧
     (chunksOf 10 (List.range 25)).map List.length = [10, 10, 5]) :=
  ⟨by decide, C4_chunking 10 (by decide) (List.range 25)⟩

/-- C2: the deidentification step is idempotent — whenever the metadata
library's reader inverts its writer on the stripped document, applying
the step a second time is a no-op (same bytes in the embedded comment,
same pixel data), the stripped document has no acquisition date on any
image and zero structured annotations, and its other fields
(instruments, image ids, pixel geometry) are unchanged. The second
application cannot error: the step is a total function of the file. -/
theorem C2_deid_idempotent (parse : PStr → OME) (f : TiffFile)
    (hrt : parse (to_xml (strip_ome (parse f.comment)))
      = strip_ome (parse f.comment)) :
    deid_step parse (deid_step parse f) = deid_step parse f ∧
    (deid_step parse f).pixel_data = f.pixel_data ∧
    (∀ img ∈ (strip_ome (parse f.comment)).images, img.acquisition_date = none) ∧
    (strip_ome (parse f.comment)).structured_annotations = [] ∧
    (strip_ome (parse f.comment)).instruments = (parse f.comment).instruments := by
  refine ⟨?_, rfl, ?_, rfl, rfl⟩
  · have h1 : deid_step parse (deid_step parse f)
        = tiffcomment f (to_xml (strip_ome (parse (to_xml (strip_ome (parse f.comment)))))) :=
      rfl
    rw [h1, hrt, strip_ome_idem]
    rfl
  · intro img h
    rcases List.mem_map.mp h with ⟨x, _, hx⟩
    rw [← hx]

/-- Witness for C2: a concrete file and a reader that is an exact round
trip on the stripped sample document. -/
theorem C2_deid_idempotent_witness :
    parse0 (to_xml (strip_ome (parse0 tiff0.comment)))
      = strip_ome (parse0 tiff0.comment) ∧
    (deid_step parse0 (deid_step parse0 tiff0) = deid_step parse0 tiff0 ∧
     (deid_step parse0 tiff0).pixel_data = tiff0.pixel_data ∧
     (∀ img ∈ (strip_ome (parse0 tiff0.comment)).images, img.acquisition_date = none) ∧
     (strip_ome (parse0 tiff0.comment)).structured_annotations = [] ∧
     (strip_ome (parse0 tiff0.comment)).instruments = (parse0 tiff0.comment).instruments) :=
  ⟨by decide, C2_deid_idempotent parse0 tiff0 (by decide)⟩

/-- C8: the deidentification mutation changes exactly two things — every
image's acquisition timestamp (cleared) and the structured-annotations
collection (emptied). The instruments, the number of images, each
image's id and pixel block are unchanged, and the file rewrite touches
only the embedded comment, never the pixel data. -/
theorem C8_frame (d : OME) (parse : PStr → OME) (f : TiffFile) :
    (strip_ome d).instruments = d.instruments ∧
    (strip_ome d).images.length = d.images.length ∧
    (∀ p ∈ d.images.zip (strip_ome d).images,
      p.2.id = p.1.id ∧ p.2.pixels = p.1.pixels ∧ p.2.acquisition_date = none) ∧
    (strip_ome d).structured_annotations = [] ∧
    (deid_step parse f).pixel_data = f.pixel_data := by
  refine ⟨rfl, by simp [strip_ome, strip_images], ?_, rfl, rfl⟩
  intro p hp
  have hp2 : p ∈ d.images.zip
      (d.images.map (fun img : Image => { img with acquisition_date := none })) := hp
  have h2 := mem_zip_map_self hp2
  rw [h2]
  exact ⟨rfl, rfl, rfl⟩

/-- C7: on an existing input directory with zero matching files the job
list is empty and discovery, both conversion stages and the metadata
loop complete without error — but the report-writing step does NOT:
`pd.concat` on the empty result list raises `ValueError`, so the run
errors out and writes no report, contradicting the claim. -/
theorem C7_empty_batch_value_error :
    files_to_convert fsNoMatch (str "in") = [] ∧
    run_stage1 false ok1All (chunksOf 10 (files_to_convert fsNoMatch (str "in")))
      (chunksOf 10 (raw_dirs (str "out") (files_to_convert fsNoMatch (str "in"))))
      = Except.ok () ∧
    metadata_pass from_tiff0 (out_files (str "out") (files_to_convert fsNoMatch (str "in")))
      = Except.ok ([], []) ∧
    pd_concat [] = Except.error PyErr.valueError ∧
    run_script fsNoMatch (str "in") (str "out") false false false ok1All ok2All from_tiff0
      = Except.error PyErr.valueError :=
  ⟨rfl, rfl, rfl, rfl, rfl⟩

/-- C1 counterexample: with two discovered files `in/a.svs`, `in/b.svs`
in one chunk and the stage-1 tool failing only on `a.svs`, the whole run
aborts with the uncaught `CalledProcessError` — no report is produced at
all, so the claimed row for the other, unaffected job `b` does not
exist. -/
theorem C1_counterexample :
    run_script fsAB (str "in") (str "out") false false false ok1FailA ok2All from_tiff0
      = Except.error PyErr.calledProcessError := rfl

/-- C1 (amended): a single external-tool failure is NOT isolated to its
job — `subprocess.check_call` raises, nothing catches it, and the whole
run aborts: whenever any job's stage-1 invocation (stage 1 not skipped)
or stage-2 invocation (stage 2 not skipped) exits non-zero, the script
terminates with an uncaught exception and writes no report (no rows for
any job, failed or not). -/
theorem C1_amended (fs : FS) (input_dir output_dir : PStr)
    (rgb skip1 skip2 : Bool)
    (ok1 : PStr → PStr → Bool) (ok2 : Bool → PStr → PStr → Bool)
    (from_tiff : PStr → OME) :
    (∀ f d, skip1 = false →
      (f, d) ∈ (files_to_convert fs input_dir).zip
        (raw_dirs output_dir (files_to_convert fs input_dir)) →
      ok1 f d = false →
      ∃ e, run_script fs input_dir output_dir rgb skip1 skip2 ok1 ok2 from_tiff
        = Except.error e) ∧
    (∀ rd od, skip2 = false →
      (rd, od) ∈ (raw_dirs output_dir (files_to_convert fs input_dir)).zip
        (out_files output_dir (files_to_convert fs input_dir)) →
      ok2 rgb rd od = false →
      ∃ e, run_script fs input_dir output_dir rgb skip1 skip2 ok1 ok2 from_tiff
        = Except.error e) := by
  constructor
  · intro f d hs1 hmem hfail
    have hlen : (files_to_convert fs input_dir).length
        = (raw_dirs output_dir (files_to_convert fs input_dir)).length := by
      simp [raw_dirs, orig_raw_dirs]
    obtain ⟨c, hc, hpc⟩ := mem_zip_chunksOf (k := 10) (by omega) hlen hmem
    rcases hres : run_script fs input_dir output_dir rgb skip1 skip2 ok1 ok2 from_tiff
      with e | rows
    · exact ⟨e, rfl⟩
    · exfalso
      obtain ⟨h1ok, _⟩ := run_script_ok_stages hres
      subst hs1
      have hseq : pySeq
          (fun c => pool_starmap (fun p => do_bioformats2raw ok1 p.1 p.2) (c.1.zip c.2))
          ((chunksOf 10 (files_to_convert fs input_dir)).zip
            (chunksOf 10 (raw_dirs output_dir (files_to_convert fs input_dir))))
          = Except.ok () := h1ok
      have h1 := pySeq_ok_mem hseq hc
      have h2 := pySeq_ok_mem h1 hpc
      unfold do_bioformats2raw subprocess_check_call at h2
      rw [hfail] at h2
      simp at h2
  · intro rd od hs2 hmem hfail
    have hlen : (raw_dirs output_dir (files_to_convert fs input_dir)).length
        = (out_files output_dir (files_to_convert fs input_dir)).length := by
      simp [raw_dirs, out_files, orig_raw_dirs]
    obtain ⟨c, hc, hpc⟩ := mem_zip_chunksOf (k := 10) (by omega) hlen hmem
    rcases hres : run_script fs input_dir output_dir rgb skip1 skip2 ok1 ok2 from_tiff
      with e | rows
    · exact ⟨e, rfl⟩
    · exfalso
      obtain ⟨_, h2ok⟩ := run_script_ok_stages hres
      subst hs2
      cases hrgb : rgb
      · rw [hrgb] at h2ok hfail
        have hseq : pySeq
            (fun c => pool_starmap (fun p => do_raw2ometiff ok2 p.1 p.2) (c.1.zip c.2))
            ((chunksOf 10 (raw_dirs output_dir (files_to_convert fs input_dir))).zip
              (chunksOf 10 (out_files output_dir (files_to_convert fs input_dir))))
            = Except.ok () := h2ok
        have h1 := pySeq_ok_mem hseq hc
        have h2 := pySeq_ok_mem h1 hpc
        unfold do_raw2ometiff subprocess_check_call at h2
        rw [hfail] at h2
        simp at h2
      · rw [hrgb] at h2ok hfail
        have hseq : pySeq
            (fun c => pool_starmap (fun p => do_raw2ometiff_rgb ok2 p.1 p.2) (c.1.zip c.2))
            ((chunksOf 10 (raw_dirs output_dir (files_to_convert fs input_dir))).zip
              (chunksOf 10 (out_files output_dir (files_to_convert fs input_dir))))
            = Except.ok () := h2ok
        have h1 := pySeq_ok_mem hseq hc
        have h2 := pySeq_ok_mem h1 hpc
        unfold do_raw2ometiff_rgb subprocess_check_call at h2
        rw [hfail] at h2
        simp at h2

/-- Witness for C1 (amended) at the two-job batch with `a.svs` failing
its stage-1 conversion. -/
theorem C1_amended_witness :
    ((str "in/a.svs", str "out/a") ∈ (files_to_convert fsAB (str "in")).zip
        (raw_dirs (str "out") (files_to_convert fsAB (str "in"))) ∧
     ok1FailA (str "in/a.svs") (str "out/a") = false) ∧
    ∃ e, run_script fsAB (str "in") (str "out") false false false ok1FailA ok2All from_tiff0
      = Except.error e :=
  ⟨⟨by decide, by decide⟩,
    (C1_amended fsAB (str "in") (str "out") false false false ok1FailA ok2All
      from_tiff0).1 (str "in/a.svs") (str "out/a") rfl (by decide) (by decide)⟩

/-- C6 counterexample: on a filesystem where the input directory does not
exist, discovery raises nothing — `glob` simply returns no matches and
the file list is silently empty (the run then dies much later, in the
report step, with a `ValueError`, not with any `InvalidInputPath`). -/
theorem C6_counterexample :
    lookupDir fsMissing (str "in") = none ∧
    files_to_convert fsMissing (str "in") = [] ∧
    run_script fsMissing (str "in") (str "out") false false false ok1All ok2All from_tiff0
      = Except.error PyErr.valueError :=
  ⟨rfl, rfl, rfl⟩

/-- C6 (amended): for every non-existent input directory the File
Discoverer silently produces an empty file list; no `InvalidInputPath`
(or any other) error is raised at discovery. -/
theorem C6_amended (fs : FS) (input_dir : PStr)
    (h : lookupDir fs input_dir = none) :
    files_to_convert fs input_dir = [] := by
  simp [files_to_convert, file_types, glob, h]

/-- Witness for C6 (amended) at the missing directory `in`. -/
theorem C6_amended_witness :
    lookupDir fsMissing (str "in") = none ∧
    files_to_convert fsMissing (str "in") = [] :=
  ⟨rfl, C6_amended fsMissing (str "in") rfl⟩

/-- C10: in the original script the metadata loop body reads the
undefined names `img` (first statement) and `ome1`, so on every
non-empty output list the loop raises `NameError: img` on its first
iteration — the script strips no file and writes no report. Every
iteration of the version-1 body fails the same way, while the version-4
body performs no dynamic name lookup at all: the only error it can
raise is the `IndexError` of the metadata extraction. -/
theorem C10_v1_name_errors (ft : PStr → OME) (ofiles : List PStr)
    (h : ofiles ≠ []) :
    v1_report ft ofiles = Except.error (PyErr.nameError (str "img")) ∧
    (∀ file, v1_body v1_env ft file = Except.error (PyErr.nameError (str "img"))) ∧
    (∀ file e, v4_body ft file = Except.error e → e = PyErr.indexError) := by
  refine ⟨?_, fun file => rfl, ?_⟩
  · rcases ofiles with _ | ⟨a, rest⟩
    · exact absurd rfl h
    · rfl
  · intro file e hv
    unfold v4_body at hv
    rcases except_bind_error_elim hv with h1 | ⟨md, _, hv⟩
    · exact get_img_metadata_error h1
    · exact absurd hv (by simp)

/-- Witness for C10 at a one-file output list. -/
theorem C10_v1_name_errors_witness :
    ([str "out/a.ome.tiff"] ≠ ([] : List PStr)) ∧
    (v1_report from_tiff0 [str "out/a.ome.tiff"]
        = Except.error (PyErr.nameError (str "img")) ∧
     (∀ file, v1_body v1_env from_tiff0 file
        = Except.error (PyErr.nameError (str "img"))) ∧
     (∀ file e, v4_body from_tiff0 file = Except.error e → e = PyErr.indexError)) :=
  ⟨by decide, C10_v1_name_errors from_tiff0 [str "out/a.ome.tiff"] (by decide)⟩

/-- C3 counterexample: two distinct source files discovered from the SAME
input directory — `in/sample.qptiff` and `in/sample.svs` — map to the
same intermediate directory `out/sample` and the same output path, so
the claimed no-collision property fails. -/
theorem C3_counterexample :
    files_to_convert fsTwoExt (str "in")
      = [str "in/sample.qptiff", str "in/sample.svs"] ∧
    str "in/sample.qptiff" ≠ str "in/sample.svs" ∧
    raw_dir_of (str "out") (orig_raw_dir (str "in/sample.qptiff"))
      = raw_dir_of (str "out") (orig_raw_dir (str "in/sample.svs")) ∧
    out_file_of (str "out") (orig_raw_dir (str "in/sample.qptiff"))
      = out_file_of (str "out") (orig_raw_dir (str "in/sample.svs")) ∧
    raw_dir_of (str "out") (orig_raw_dir (str "in/sample.qptiff"))
      = str "out/sample" := by decide

/-- C3 (amended): `intermediate_dir` and `output_path` are deterministic
pure per-file functions of `source_path` and the output root (the
whole-list derivations are the pointwise map of those functions, so
re-running on the same inputs reproduces the same paths) — but distinct
source paths in the same input set CAN collide: for every output root,
`in/sample.svs` and `in/sample.qptiff` receive the same intermediate
directory and the same output path. -/
theorem C3_amended (out : PStr) (files : List PStr) :
    raw_dirs out files = files.map (fun f => raw_dir_of out (orig_raw_dir f)) ∧
    out_files out files = files.map (fun f => out_file_of out (orig_raw_dir f)) ∧
    raw_dir_of out (orig_raw_dir (str "in/sample.svs"))
      = raw_dir_of out (orig_raw_dir (str "in/sample.qptiff")) ∧
    out_file_of out (orig_raw_dir (str "in/sample.svs"))
      = out_file_of out (orig_raw_dir (str "in/sample.qptiff")) := by
  refine ⟨?_, ?_, ?_, ?_⟩
  · simp only [raw_dirs, orig_raw_dirs, List.map_map]
    rfl
  · simp only [out_files, orig_raw_dirs, List.map_map]
    rfl
  · exact congrArg (raw_dir_of out) (by decide)
  · exact congrArg (out_file_of out) (by decide)

/-- C5 counterexample: for the source file `in/my.sample.svs`, whose
basename-without-extension `my.sample` contains a dot, the script does
NOT produce `out/my.sample` — `''.join(split('.')[:-1])` deletes the
interior dot, yielding `out/mysample`. -/
theorem C5_counterexample :
    raw_dir_of (str "out") (orig_raw_dir (str "in/my.sample.svs"))
      = str "out/mysample" ∧
    out_file_of (str "out") (orig_raw_dir (str "in/my.sample.svs"))
      = str "out/mysample.ome.tiff" ∧
    str "out/mysample" ≠ str "out/my.sample" := by decide

/-- C5 (amended): for a dot-free directory and a dot-free basename stem,
the partitioner derives `intermediate_dir = <out>/<stem>` and
`output_path = <out>/<stem>.ome.tiff` (so scenario A holds for
`sample.svs`); but when the stem contains a dot (`<s1>.<s2>`), the
derivation deletes the dot and yields `<out>/<s1><s2>`, not
`<out>/<s1>.<s2>`. -/
theorem C5_amended (out dir stem s1 s2 : PStr)
    (hdir : '.' ∉ dir) (hstem : '.' ∉ stem) (hstem2 : '/' ∉ stem)
    (hs1 : '.' ∉ s1) (hs1b : '/' ∉ s1) (hs2 : '.' ∉ s2) (hs2b : '/' ∉ s2) :
    raw_dir_of out (orig_raw_dir (dir ++ '/' :: stem ++ str ".svs"))
      = out ++ '/' :: stem ∧
    out_file_of out (orig_raw_dir (dir ++ '/' :: stem ++ str ".svs"))
      = out ++ '/' :: stem ++ str ".ome.tiff" ∧
    raw_dir_of out (orig_raw_dir (dir ++ '/' :: s1 ++ '.' :: s2 ++ str ".svs"))
      = out ++ '/' :: (s1 ++ s2) := by
  have hsvs : ('.' : Char) ∉ str "svs" := by decide
  have hnd : ('.' : Char) ∉ dir ++ '/' :: stem := by
    intro hm
    rcases List.mem_append.mp hm with hm | hm
    · exact hdir hm
    · rcases List.mem_cons.mp hm with hm | hm
      · exact absurd hm (by decide)
      · exact hstem hm
  have hnd1 : ('.' : Char) ∉ dir ++ '/' :: s1 := by
    intro hm
    rcases List.mem_append.mp hm with hm | hm
    · exact hdir hm
    · rcases List.mem_cons.mp hm with hm | hm
      · exact absurd hm (by decide)
      · exact hs1 hm
  have hs12 : ('/' : Char) ∉ s1 ++ s2 := by
    intro hm
    rcases List.mem_append.mp hm with hm | hm
    · exact hs1b hm
    · exact hs2b hm
  have key1 : orig_raw_dir (dir ++ '/' :: stem ++ str ".svs")
      = dir ++ '/' :: stem := by
    unfold orig_raw_dir pyJoinEmpty
    rw [show str ".svs" = '.' :: str "svs" from rfl,
      pySplit_append (str "svs") hnd, pySplit_of_not_mem hsvs]
    simp
  have key2 : orig_raw_dir (dir ++ '/' :: s1 ++ '.' :: s2 ++ str ".svs")
      = dir ++ '/' :: (s1 ++ s2) := by
    unfold orig_raw_dir pyJoinEmpty
    have hpath : dir ++ '/' :: s1 ++ '.' :: s2 ++ str ".svs"
        = (dir ++ '/' :: s1) ++ '.' :: (s2 ++ '.' :: str "svs") := by
      rw [List.append_assoc]
      rfl
    rw [hpath, pySplit_append _ hnd1, pySplit_append _ hs2,
      pySplit_of_not_mem hsvs]
    simp [List.append_assoc]
  refine ⟨?_, ?_, ?_⟩
  · rw [key1]
    unfold raw_dir_of
    rw [basename_append dir hstem2]
  · rw [key1]
    unfold out_file_of
    rw [basename_append dir hstem2]
  · rw [key2]
    unfold raw_dir_of
    rw [basename_append dir hs12]

/-- Witness for C5 (amended) at `in/sample.svs` (scenario A) and
`in/my.sample.svs`. -/
theorem C5_amended_witness :
    (('.' : Char) ∉ str "in" ∧ ('.' : Char) ∉ str "sample" ∧
     ('/' : Char) ∉ str "sample" ∧ ('.' : Char) ∉ str "my" ∧
     ('/' : Char) ∉ str "my") ∧
    (raw_dir_of (str "out") (orig_raw_dir (str "in" ++ '/' :: str "sample" ++ str ".svs"))
      = str "out" ++ '/' :: str "sample" ∧
     out_file_of (str "out") (orig_raw_dir (str "in" ++ '/' :: str "sample" ++ str ".svs"))
      = str "out" ++ '/' :: str "sample" ++ str ".ome.tiff" ∧
     raw_dir_of (str "out")
        (orig_raw_dir (str "in" ++ '/' :: str "my" ++ '.' :: str "sample" ++ str ".svs"))
      = str "out" ++ '/' :: (str "my" ++ str "sample")) :=
  ⟨⟨by decide, by decide, by decide, by decide, by decide⟩,
    C5_amended (str "out") (str "in") (str "sample") (str "my") (str "sample")
      (by decide) (by decide) (by decide) (by decide) (by decide) (by decide) (by decide)⟩

/-- C9 counterexample: on a document with zero declared images and zero
instruments, `get_img_metadata` does propagate the unchecked index
access — it fails with `IndexError` instead of being total. -/
theorem C9_counterexample :
    get_img_metadata omeEmpty (str "f.ome.tiff")
      = Except.error PyErr.indexError := rfl

/-- C9 (amended): when the document declares at least one image and at
least one instrument with at least one objective, `get_img_metadata`
builds the fixed 44-field record from the first image and first
instrument/objective (constant identifier fields are left blank); but
on any document with zero images or zero instruments it raises the
unchecked `IndexError` — the extraction is not total. -/
theorem C9_amended (d : OME) (fn : PStr) (inst : Instrument) (obj : Objective)
    (img : Image)
    (h1 : d.instruments.head? = some inst)
    (h2 : inst.objectives.head? = some obj)
    (h3 : d.images.head? = some img) :
    (∃ md, get_img_metadata d fn = Except.ok md ∧
      md.lookup (str "Filename") = some (PyVal.vStr fn) ∧
      md.lookup (str "Microscope") = some (optStrV inst.microscope.model) ∧
      md.lookup (str "Objective") = some (optStrV obj.model) ∧
      md.lookup (str "Image ID") = some (PyVal.vStr img.id) ∧
      md.lookup (str "SizeX") = some (PyVal.vNat img.pixels.size_x) ∧
      md.length = 44) ∧
    (∀ d2 : OME, d2.images = [] ∨ d2.instruments = [] →
      get_img_metadata d2 fn = Except.error PyErr.indexError) := by
  constructor
  · obtain ⟨dimgs, dinsts, dann⟩ := d
    rcases dinsts with _ | ⟨i0, it⟩
    · exact absurd h1 (by simp)
    rcases dimgs with _ | ⟨g0, gt⟩
    · exact absurd h3 (by simp)
    have hi : i0 = inst := by simpa using h1
    have hg : g0 = img := by simpa using h3
    subst hi
    subst hg
    obtain ⟨imic, iobjs⟩ := i0
    rcases iobjs with _ | ⟨o0, ot⟩
    · exact absurd h2 (by simp)
    have ho : o0 = obj := by simpa using h2
    subst ho
    exact ⟨_, rfl, rfl, rfl, rfl, rfl, rfl, rfl⟩
  · intro d2 hd
    obtain ⟨e2i, e2n, e2a⟩ := d2
    rcases hd with hd | hd
    · have hnil : e2i = [] := hd
      subst hnil
      rcases e2n with _ | ⟨i0, it⟩
      · rfl
      obtain ⟨imic, iobjs⟩ := i0
      rcases iobjs with _ | ⟨o0, ot⟩
      · rfl
      · rfl
    · have hnil : e2n = [] := hd
      subst hnil
      rfl

/-- Witness for C9 (amended) at the sample document. -/
theorem C9_amended_witness :
    (ome0.instruments.head? = some inst0 ∧
     inst0.objectives.head? = some (⟨some (str "ObjModel"), some 40⟩ : Objective) ∧
     ome0.images.head? = some image0) ∧
    ((∃ md, get_img_metadata ome0 (str "sample.ome.tiff") = Except.ok md ∧
      md.lookup (str "Filename") = some (PyVal.vStr (str "sample.ome.tiff")) ∧
      md.lookup (str "Microscope") = some (optStrV inst0.microscope.model) ∧
      md.lookup (str "Objective")
        = some (optStrV (⟨some (str "ObjModel"), some 40⟩ : Objective).model) ∧
      md.lookup (str "Image ID") = some (PyVal.vStr image0.id) ∧
      md.lookup (str "SizeX") = some (PyVal.vNat image0.pixels.size_x) ∧
      md.length = 44) ∧
     (∀ d2 : OME, d2.images = [] ∨ d2.instruments = [] →
       get_img_metadata d2 (str "sample.ome.tiff") = Except.error PyErr.indexError)) :=
  ⟨⟨rfl, rfl, rfl⟩,
    C9_amended ome0 (str "sample.ome.tiff") inst0
      ⟨some (str "ObjModel"), some 40⟩ image0 rfl rfl rfl⟩
